import Mathlib

/-!
Shallow embedding of the `miit` event bus (`src/index.ts`).

The TypeScript implementation keeps, per event key,
* an rxjs `BehaviorSubject` holding the latest published value
  (`undefined` meaning "no value"), whose subscribers are the live
  handlers (each behind a `filter(value !== undefined)` pipe), and
* a registry `Map<string, SubscriptionManager[]>` keyed by
  `String(type)`, used by `off` / `hasListeners` / `getListenerCount`.

The embedding models:
* JS `undefined` as `Option.none` (payloads are `Option JVal`, so JS
  `null` is the ordinary value `JVal.jnull`);
* event keys (`string | symbol`) as `EvKey`, where a symbol is an
  identity token (fresh `id`) carrying its description, and
  `String(type)` is `eventName`;
* each `BehaviorSubject` as a `SubjectState`: its current value plus
  its ordered observer list (pairs of subscription id and handler id);
* the registry as an association list `String → arrayId` together with
  a store `arrayId → List Manager`.  JS arrays are mutable objects
  aliased by the closures `on` returns, so array identity matters: the
  closure returned by `on` captures the array object (here: its id),
  the manager object (identified by its unique subscription id) and
  `eventName`, exactly like the source.  Arrays are never removed from
  the store (in JS the closure keeps them alive), matching the source
  where `off`/`clear` delete map entries but never empty the arrays.

Handlers are passive and identified by a `Nat`; every operation that
can deliver values returns, next to the new bus, the list of
`(handlerId, value)` invocations it performed, in order.
-/

namespace Miit

/-- JS payload values other than `undefined`.  `undefined` itself is
represented by `Option.none` at every use site, so `JVal.jnull` is the
JS `null` payload, a legitimate value distinct from `undefined`. -/
inductive JVal where
  | jnull : JVal
  | jnat : Nat → JVal
  | jstr : String → JVal
deriving DecidableEq, Repr

/-- Event keys, `string | symbol` in the source.  A symbol is an
identity token: two symbols are the same key exactly when they come
from the same `Symbol(...)` allocation, which we model by a unique
`id`; the description tags along because `String(symbol)` exposes it. -/
inductive EvKey where
  | str : String → EvKey
  | sym : Nat → String → EvKey
deriving DecidableEq, Repr

/-- JS `String(type)`: identity on strings, `"Symbol(<descr>)"` on
symbols.  This is the key of the `subscriptions` map in the source. -/
def eventName : EvKey → String
  | .str s => s
  | .sym _ d => "Symbol(" ++ d ++ ")"

/-- One entry of a registry array: the source's `SubscriptionManager`
(`{ subscription, handler }`).  The rxjs subscription is identified by
its unique subscription id; `handler` is the handler reference. -/
structure Manager where
  subId : Nat
  handler : Nat
deriving DecidableEq, Repr

/-- State of one `BehaviorSubject<Events[Key] | undefined>`: its current
value (`none` = `undefined`) and its ordered observer list, each
observer being the `(subId, handlerId)` of one `.subscribe(handler)`
call that has not been unsubscribed. -/
structure SubjectState where
  value : Option JVal
  observers : List (Nat × Nat)
deriving DecidableEq, Repr

/-- The whole `EnhancedEventBus` state.  `subjects` is the
`behaviorSubjects` map (keyed by the key value itself); `registry` is
the `subscriptions` map, keyed by `eventName` and pointing into the
array store `arrays`.  `nextSub` / `nextArr` are allocation counters
for subscription ids and array identities. -/
structure Bus where
  subjects : List (EvKey × SubjectState)
  registry : List (String × Nat)
  arrays : List (Nat × List Manager)
  nextSub : Nat
  nextArr : Nat
deriving DecidableEq, Repr

/-- A freshly constructed bus (`createEventBus()`). -/
def Bus.fresh : Bus := ⟨[], [], [], 0, 0⟩

/-- The closure returned by `on`: it captures the rxjs subscription
(`subId`), the manager object (identified by the same unique `subId`),
the registry array object (`arrId`) and `eventName`. -/
structure Token where
  subId : Nat
  arrId : Nat
  name : String
deriving DecidableEq, Repr

/-- Result of `on`: new bus state, replay invocations performed during
the call, and the returned unsubscribe closure. -/
structure OnResult where
  bus : Bus
  log : List (Nat × JVal)
  token : Token
deriving DecidableEq, Repr

/-- Lookup in an association list (JS `Map.get`). -/
def lookupA {α β : Type} [DecidableEq α] : List (α × β) → α → Option β
  | [], _ => none
  | (a, b) :: rest, k => if a = k then some b else lookupA rest k

/-- Update-or-append in an association list (JS `Map.set`). -/
def setA {α β : Type} [DecidableEq α] : List (α × β) → α → β → List (α × β)
  | [], k, v => [(k, v)]
  | (a, b) :: rest, k, v =>
      if a = k then (k, v) :: rest else (a, b) :: setA rest k v

/-- Deletion from an association list (JS `Map.delete`; the maps built
here never hold a key twice, so removing every occurrence agrees with
`Map.delete`). -/
def eraseA {α β : Type} [DecidableEq α] : List (α × β) → α → List (α × β)
  | [], _ => []
  | (a, b) :: rest, k =>
      if a = k then eraseA rest k else (a, b) :: eraseA rest k

/-- The `BehaviorSubject` for a key, defaulting to a never-created one
(value `undefined`, no observers); reads through this default are
indistinguishable from reads after lazy creation. -/
def subjectOf (b : Bus) (k : EvKey) : SubjectState :=
  (lookupA b.subjects k).getD ⟨none, []⟩

/-- Current cached value of a key's subject. -/
def valueOf (b : Bus) (k : EvKey) : Option JVal :=
  (subjectOf b k).value

/-- Ordered observer list of a key's subject: the handlers that a
publish to this key would reach, in subscription order. -/
def listeners (b : Bus) (k : EvKey) : List (Nat × Nat) :=
  (subjectOf b k).observers

/-- `getBehaviorSubject`'s lazy-creation side effect: install a fresh
`BehaviorSubject(undefined)` for `type` if none exists. -/
def ensureSubject (b : Bus) (k : EvKey) : Bus :=
  match lookupA b.subjects k with
  | some _ => b
  | none => { b with subjects := setA b.subjects k ⟨none, []⟩ }

/-- The registry array currently reachable under a map key, `[]` when
the map has no such entry. -/
def regEntry (b : Bus) (n : String) : List Manager :=
  match lookupA b.registry n with
  | none => []
  | some aid => (lookupA b.arrays aid).getD []

/-- `subscription.unsubscribe()` for subscription `sid`: detach that
observer from whichever subject it is attached to (idempotent; no-op
when already detached or the subject was completed and discarded). -/
def detach (b : Bus) (sid : Nat) : Bus :=
  { b with
      subjects := b.subjects.map fun p =>
        (p.1, ⟨p.2.value, p.2.observers.filter fun q => q.1 != sid⟩) }

/-- `managers.forEach(({ subscription }) => subscription.unsubscribe())`. -/
def detachAll (b : Bus) (mgrs : List Manager) : Bus :=
  mgrs.foldl (fun a m => detach a m.subId) b

/--
`on(type, handler)`.  Following the source line by line:
1. `eventName = String(type)`;
2. subscribe to the (lazily created) `BehaviorSubject` through
   `filter(value !== undefined)`: attach a fresh observer, and — since
   a `BehaviorSubject` emits its current value to a new subscriber at
   once — replay the current value to `handler` unless it is
   `undefined`;
3. ensure a registry array exists for `eventName` and push a new
   `SubscriptionManager`;
4. return the unsubscribe closure capturing the subscription, the
   manager, the array object and `eventName`.
-/
def on' (b : Bus) (k : EvKey) (h : Nat) : OnResult :=
  let n := eventName k
  let b1 := ensureSubject b k
  let s := subjectOf b1 k
  let sid := b1.nextSub
  let log : List (Nat × JVal) :=
    match s.value with
    | some v => [(h, v)]
    | none => []
  let b2 : Bus :=
    { b1 with
        subjects := setA b1.subjects k ⟨s.value, s.observers ++ [(sid, h)]⟩,
        nextSub := sid + 1 }
  let (b3, aid) :=
    match lookupA b2.registry n with
    | some aid => (b2, aid)
    | none =>
        ({ b2 with
             registry := setA b2.registry n b2.nextArr,
             arrays := setA b2.arrays b2.nextArr [],
             nextArr := b2.nextArr + 1 }, b2.nextArr)
  let mgrs := (lookupA b3.arrays aid).getD []
  let b4 : Bus := { b3 with arrays := setA b3.arrays aid (mgrs ++ [⟨sid, h⟩]) }
  ⟨b4, log, ⟨sid, aid, n⟩⟩

/-- `emit(type, event)`: `getBehaviorSubject(type).next(event)`.  The
subject stores `event` as its new current value (also when it is
`undefined`) and delivers it to every observer in subscription order;
each observer's `filter(value !== undefined)` pipe drops `undefined`,
so delivery happens exactly when the payload is not the sentinel. -/
def emit (b : Bus) (k : EvKey) (v : Option JVal) : Bus × List (Nat × JVal) :=
  let b1 := ensureSubject b k
  let s := subjectOf b1 k
  let b2 : Bus := { b1 with subjects := setA b1.subjects k ⟨v, s.observers⟩ }
  let log : List (Nat × JVal) :=
    match v with
    | some v0 => s.observers.map fun q => (q.2, v0)
    | none => []
  (b2, log)

/-- First element satisfying `p` together with the list with that one
element removed (`findIndex` + `splice(index, 1)` in the source). -/
def removeFirst (p : Manager → Bool) : List Manager → Option (Manager × List Manager)
  | [] => none
  | m :: rest =>
      if p m then some (m, rest)
      else
        match removeFirst p rest with
        | none => none
        | some (m0, rest0) => some (m0, m :: rest0)

/--
`off(type?, handler?)`.  The returned `Bool` records whether the call
printed the `console.warn` message.  Cases, as in the source:
* no `type`: warn, change nothing;
* unknown `eventName`: no-op;
* no `handler`: unsubscribe every manager of the entry and delete the
  map entry (the array object itself is not emptied);
* with `handler`: unsubscribe and splice the first manager whose
  handler reference equals `handler`, deleting the map entry if the
  array became empty.
-/
def off (b : Bus) (k : Option EvKey) (h : Option Nat) : Bus × Bool :=
  match k with
  | none => (b, true)
  | some k0 =>
      let n := eventName k0
      match lookupA b.registry n with
      | none => (b, false)
      | some aid =>
          let mgrs := (lookupA b.arrays aid).getD []
          match h with
          | none =>
              let b1 := detachAll b mgrs
              ({ b1 with registry := eraseA b1.registry n }, false)
          | some h0 =>
              match removeFirst (fun m => m.handler == h0) mgrs with
              | none => (b, false)
              | some (m, mgrs0) =>
                  let b1 := detach b m.subId
                  let b2 : Bus := { b1 with arrays := setA b1.arrays aid mgrs0 }
                  if mgrs0.isEmpty then
                    ({ b2 with registry := eraseA b2.registry n }, false)
                  else (b2, false)

/--
Invoking the closure returned by `on`:
`subscription.unsubscribe()`; then `managers.indexOf(subscriptionManager)`
on the captured array object — not necessarily the array currently in
the registry — and, if found, `splice` it out and, if that array is now
empty, `subscriptions.delete(eventName)` on the current map.
-/
def runToken (b : Bus) (t : Token) : Bus :=
  let b1 := detach b t.subId
  let mgrs := (lookupA b1.arrays t.arrId).getD []
  match removeFirst (fun m => m.subId == t.subId) mgrs with
  | none => b1
  | some (_, mgrs0) =>
      let b2 : Bus := { b1 with arrays := setA b1.arrays t.arrId mgrs0 }
      if mgrs0.isEmpty then { b2 with registry := eraseA b2.registry t.name }
      else b2

/-- `clear()`: unsubscribe every manager of every registry entry, empty
the `subscriptions` map, complete every `BehaviorSubject` and empty the
`behaviorSubjects` map (completing then discarding a subject detaches
any observer still on it). -/
def clear (b : Bus) : Bus :=
  let b1 := b.registry.foldl
    (fun acc e => detachAll acc ((lookupA acc.arrays e.2).getD [])) b
  { b1 with registry := [], subjects := [] }

/-- `destroy()`: `this.clear()`. -/
def destroy (b : Bus) : Bus := clear b

/-- `getCurrentValue(type)`: the subject's value if a subject exists
(`value !== undefined ? value : undefined` is the identity on our
`Option`), `undefined` otherwise. -/
def getCurrentValue (b : Bus) (k : EvKey) : Option JVal :=
  match lookupA b.subjects k with
  | none => none
  | some s => s.value

/-- `hasListeners(type)`: the registry has an entry for
`String(type)` and that entry's array is non-empty. -/
def hasListeners (b : Bus) (k : EvKey) : Bool :=
  match lookupA b.registry (eventName k) with
  | none => false
  | some aid => ((lookupA b.arrays aid).getD []).length > 0

/-- `getListenerCount(type)`: length of the entry's array, `0` when
there is no entry. -/
def getListenerCount (b : Bus) (k : EvKey) : Nat :=
  match lookupA b.registry (eventName k) with
  | none => 0
  | some aid => ((lookupA b.arrays aid).getD []).length

/-- A sequence of publishes to one key, in order. -/
def emitAll (b : Bus) (k : EvKey) (ps : List (Option JVal)) : Bus :=
  ps.foldl (fun a p => (emit a k p).1) b

/-- Trace exhibiting the stale-closure interaction in `on`'s returned
unsubscribe function: subscribe handler 1 to `"k"` and keep the
returned closure; call `off("k")` (which unsubscribes the handler and
deletes the registry entry, but leaves the captured array object still
holding the manager); subscribe handler 2 to `"k"` (a fresh registry
array is created); finally invoke the old closure.  The old closure
splices its manager out of the *stale* array, finds that array empty,
and executes `subscriptions.delete("k")` — deleting the fresh entry
that holds handler 2's manager, while handler 2's rxjs subscription
stays attached to the subject. -/
def staleTokenTrace : Bus :=
  runToken
    (on' (off (on' Bus.fresh (EvKey.str "k") 1).bus
        (some (EvKey.str "k")) none).1 (EvKey.str "k") 2).bus
    (on' Bus.fresh (EvKey.str "k") 1).token

/-! ### Association-list lemmas -/

theorem lookupA_setA_self {α β : Type} [DecidableEq α]
    (l : List (α × β)) (k : α) (v : β) : lookupA (setA l k v) k = some v := by
  induction l with
  | nil => simp [setA, lookupA]
  | cons p rest ih =>
      obtain ⟨a, b⟩ := p
      by_cases h : a = k
      · simp [setA, h, lookupA]
      · simp [setA, h, lookupA, ih]

theorem lookupA_setA_ne {α β : Type} [DecidableEq α]
    (l : List (α × β)) (k k' : α) (v : β) (h : k' ≠ k) :
    lookupA (setA l k v) k' = lookupA l k' := by
  induction l with
  | nil => simp [setA, lookupA, Ne.symm h]
  | cons p rest ih =>
      obtain ⟨a, b⟩ := p
      by_cases ha : a = k
      · subst ha
        simp [setA, lookupA, Ne.symm h]
      · simp [setA, ha, lookupA, ih]

theorem lookupA_eraseA_self {α β : Type} [DecidableEq α]
    (l : List (α × β)) (k : α) : lookupA (eraseA l k) k = none := by
  induction l with
  | nil => simp [eraseA, lookupA]
  | cons p rest ih =>
      obtain ⟨a, b⟩ := p
      by_cases h : a = k
      · simp [eraseA, h, ih]
      · simp [eraseA, h, lookupA, ih]

theorem lookupA_eraseA_ne {α β : Type} [DecidableEq α]
    (l : List (α × β)) (k k' : α) (h : k' ≠ k) :
    lookupA (eraseA l k) k' = lookupA l k' := by
  induction l with
  | nil => simp [eraseA]
  | cons p rest ih =>
      obtain ⟨a, b⟩ := p
      by_cases ha : a = k
      · subst ha
        simp [eraseA, lookupA, Ne.symm h, ih]
      · simp [eraseA, ha, lookupA, ih]

theorem lookupA_map_value {α β γ : Type} [DecidableEq α]
    (l : List (α × β)) (f : β → γ) (k : α) :
    lookupA (l.map fun p => (p.1, f p.2)) k = (lookupA l k).map f := by
  induction l with
  | nil => simp [lookupA]
  | cons p rest ih =>
      obtain ⟨a, b⟩ := p
      by_cases h : a = k
      · simp [lookupA, h]
      · simp [lookupA, h, ih]

/-! ### Frame lemmas for the primitive operations -/

theorem subjectOf_ensure (b : Bus) (k k' : EvKey) :
    subjectOf (ensureSubject b k) k' = subjectOf b k' := by
  unfold ensureSubject
  cases hl : lookupA b.subjects k with
  | some s => rfl
  | none =>
      by_cases h : k' = k
      · subst h
        simp [subjectOf, lookupA_setA_self, hl]
      · simp [subjectOf, lookupA_setA_ne _ _ _ _ h]

theorem ensure_registry (b : Bus) (k : EvKey) :
    (ensureSubject b k).registry = b.registry := by
  unfold ensureSubject
  cases lookupA b.subjects k <;> rfl

theorem ensure_arrays (b : Bus) (k : EvKey) :
    (ensureSubject b k).arrays = b.arrays := by
  unfold ensureSubject
  cases lookupA b.subjects k <;> rfl

theorem ensure_nextSub (b : Bus) (k : EvKey) :
    (ensureSubject b k).nextSub = b.nextSub := by
  unfold ensureSubject
  cases lookupA b.subjects k <;> rfl

theorem getCurrentValue_eq_valueOf (b : Bus) (k : EvKey) :
    getCurrentValue b k = valueOf b k := by
  unfold getCurrentValue valueOf subjectOf
  cases lookupA b.subjects k <;> rfl

theorem emit_subjects (b : Bus) (k : EvKey) (v : Option JVal) :
    (emit b k v).1.subjects =
      setA (ensureSubject b k).subjects k
        ⟨v, (subjectOf (ensureSubject b k) k).observers⟩ := rfl

theorem subjectOf_emit (b : Bus) (k k' : EvKey) (v : Option JVal) :
    subjectOf (emit b k v).1 k' =
      if k' = k then ⟨v, listeners b k⟩ else subjectOf b k' := by
  by_cases h : k' = k
  · subst h
    have h1 : subjectOf (emit b k' v).1 k' =
        ⟨v, (subjectOf (ensureSubject b k') k').observers⟩ := by
      unfold subjectOf
      rw [emit_subjects, lookupA_setA_self]
      rfl
    rw [h1, subjectOf_ensure, if_pos rfl]
    rfl
  · have h1 : subjectOf (emit b k v).1 k' = subjectOf (ensureSubject b k) k' := by
      unfold subjectOf
      rw [emit_subjects, lookupA_setA_ne _ _ _ _ h]
    rw [h1, subjectOf_ensure, if_neg h]

theorem valueOf_emit_self (b : Bus) (k : EvKey) (v : Option JVal) :
    valueOf (emit b k v).1 k = v := by
  simp [valueOf, subjectOf_emit]

theorem valueOf_emit_ne (b : Bus) (k k' : EvKey) (v : Option JVal) (h : k' ≠ k) :
    valueOf (emit b k v).1 k' = valueOf b k' := by
  simp [valueOf, subjectOf_emit, h]

theorem listeners_emit (b : Bus) (k k' : EvKey) (v : Option JVal) :
    listeners (emit b k v).1 k' = listeners b k' := by
  by_cases h : k' = k
  · subst h
    simp [listeners, subjectOf_emit]
  · simp [listeners, subjectOf_emit, h]

theorem emit_log_some (b : Bus) (k : EvKey) (v : JVal) :
    (emit b k (some v)).2 = (listeners b k).map fun q => (q.2, v) := by
  show ((subjectOf (ensureSubject b k) k).observers.map fun q => (q.2, v)) = _
  rw [subjectOf_ensure]
  rfl

theorem emit_log_none (b : Bus) (k : EvKey) : (emit b k none).2 = [] := rfl

theorem subjectOf_congr {b b' : Bus} (h : b.subjects = b'.subjects) (k : EvKey) :
    subjectOf b k = subjectOf b' k := by
  unfold subjectOf
  rw [h]

theorem on_subjects (b : Bus) (k : EvKey) (h : Nat) :
    (on' b k h).bus.subjects =
      setA (ensureSubject b k).subjects k
        ⟨(subjectOf b k).value,
         (subjectOf b k).observers ++ [(b.nextSub, h)]⟩ := by
  simp only [on', subjectOf_ensure, ensure_nextSub]
  split <;> rfl

theorem subjectOf_on (b : Bus) (k k' : EvKey) (h : Nat) :
    subjectOf (on' b k h).bus k' =
      if k' = k then ⟨valueOf b k, listeners b k ++ [(b.nextSub, h)]⟩
      else subjectOf b k' := by
  by_cases hk : k' = k
  · subst hk
    have h1 : subjectOf (on' b k' h).bus k' =
        ⟨(subjectOf b k').value, (subjectOf b k').observers ++ [(b.nextSub, h)]⟩ := by
      unfold subjectOf
      rw [on_subjects, lookupA_setA_self]
      rfl
    rw [h1, if_pos rfl]
    rfl
  · have h1 : subjectOf (on' b k h).bus k' = subjectOf (ensureSubject b k) k' := by
      unfold subjectOf
      rw [on_subjects, lookupA_setA_ne _ _ _ _ hk]
    rw [h1, subjectOf_ensure, if_neg hk]

theorem listeners_on_self (b : Bus) (k : EvKey) (h : Nat) :
    listeners (on' b k h).bus k = listeners b k ++ [(b.nextSub, h)] := by
  simp [listeners, subjectOf_on]

theorem listeners_on_ne (b : Bus) (k k' : EvKey) (h : Nat) (hk : k' ≠ k) :
    listeners (on' b k h).bus k' = listeners b k' := by
  simp [listeners, subjectOf_on, hk]

theorem valueOf_on (b : Bus) (k k' : EvKey) (h : Nat) :
    valueOf (on' b k h).bus k' = valueOf b k' := by
  by_cases hk : k' = k
  · subst hk
    simp [valueOf, subjectOf_on]
  · simp [valueOf, subjectOf_on, hk]

theorem on_log (b : Bus) (k : EvKey) (h : Nat) :
    (on' b k h).log =
      match valueOf b k with
      | some v => [(h, v)]
      | none => [] := by
  show (match (subjectOf (ensureSubject b k) k).value with
        | some v => [(h, v)]
        | none => ([] : List (Nat × JVal))) = _
  rw [subjectOf_ensure]
  rfl

theorem detach_registry (b : Bus) (s : Nat) : (detach b s).registry = b.registry := rfl

theorem detach_arrays (b : Bus) (s : Nat) : (detach b s).arrays = b.arrays := rfl

theorem lookupA_detachMap (l : List (EvKey × SubjectState)) (s : Nat) (k : EvKey) :
    lookupA (l.map fun p =>
        (p.1, (⟨p.2.value, p.2.observers.filter fun q => q.1 != s⟩ : SubjectState))) k =
      (lookupA l k).map fun st =>
        (⟨st.value, st.observers.filter fun q => q.1 != s⟩ : SubjectState) := by
  induction l with
  | nil => rfl
  | cons p rest ih =>
      obtain ⟨a, st⟩ := p
      by_cases h : a = k
      · simp [lookupA, h]
      · simp [lookupA, h, ih]

theorem subjectOf_detach (b : Bus) (s : Nat) (k : EvKey) :
    subjectOf (detach b s) k =
      ⟨(subjectOf b k).value, (subjectOf b k).observers.filter fun q => q.1 != s⟩ := by
  unfold subjectOf detach
  rw [lookupA_detachMap]
  cases lookupA b.subjects k <;> rfl

theorem valueOf_detach (b : Bus) (s : Nat) (k : EvKey) :
    valueOf (detach b s) k = valueOf b k := by
  simp [valueOf, subjectOf_detach]

theorem listeners_detach (b : Bus) (s : Nat) (k : EvKey) :
    listeners (detach b s) k = (listeners b k).filter fun q => q.1 != s := by
  simp [listeners, subjectOf_detach]

theorem detachAll_nil (b : Bus) : detachAll b [] = b := rfl

theorem detachAll_cons (b : Bus) (m : Manager) (ms : List Manager) :
    detachAll b (m :: ms) = detachAll (detach b m.subId) ms := rfl

theorem detachAll_registry (mgrs : List Manager) :
    ∀ b : Bus, (detachAll b mgrs).registry = b.registry := by
  induction mgrs with
  | nil => intro b; rfl
  | cons m ms ih => intro b; rw [detachAll_cons, ih, detach_registry]

theorem detachAll_arrays (mgrs : List Manager) :
    ∀ b : Bus, (detachAll b mgrs).arrays = b.arrays := by
  induction mgrs with
  | nil => intro b; rfl
  | cons m ms ih => intro b; rw [detachAll_cons, ih, detach_arrays]

theorem valueOf_detachAll (mgrs : List Manager) :
    ∀ (b : Bus) (k : EvKey), valueOf (detachAll b mgrs) k = valueOf b k := by
  induction mgrs with
  | nil => intro b k; rfl
  | cons m ms ih => intro b k; rw [detachAll_cons, ih, valueOf_detach]

theorem listeners_detachAll (mgrs : List Manager) :
    ∀ (b : Bus) (k : EvKey),
      listeners (detachAll b mgrs) k =
        (listeners b k).filter fun q => mgrs.all fun m => q.1 != m.subId := by
  induction mgrs with
  | nil =>
      intro b k
      simp [detachAll_nil]
  | cons m ms ih =>
      intro b k
      rw [detachAll_cons, ih, listeners_detach, List.filter_filter]
      apply List.filter_congr
      intro q hq
      simp [List.all_cons, Bool.and_comm]

theorem off_no_key (b : Bus) (h : Option Nat) : off b none h = (b, true) := rfl

theorem off_key_warn (b : Bus) (k : EvKey) (h : Option Nat) :
    (off b (some k) h).2 = false := by
  simp only [off]
  cases hr : lookupA b.registry (eventName k) with
  | none => rfl
  | some aid =>
      simp only [hr]
      cases h with
      | none => rfl
      | some h0 =>
          cases hf : removeFirst (fun m => m.handler == h0)
              ((lookupA b.arrays aid).getD []) with
          | none => simp [hf]
          | some p =>
              obtain ⟨m, mgrs0⟩ := p
              by_cases he : mgrs0.isEmpty <;> simp [hf, he]

theorem valueOf_off_key (b : Bus) (k : EvKey) (k' : EvKey) :
    valueOf (off b (some k) none).1 k' = valueOf b k' := by
  simp only [off]
  cases hr : lookupA b.registry (eventName k) with
  | none => rfl
  | some aid =>
      simp only [hr]
      show valueOf (detachAll b ((lookupA b.arrays aid).getD [])) k' = _
      rw [valueOf_detachAll]

theorem hasListeners_off_key (b : Bus) (k : EvKey) :
    hasListeners (off b (some k) none).1 k = false := by
  simp only [off]
  cases hr : lookupA b.registry (eventName k) with
  | none => simp [hasListeners, hr]
  | some aid =>
      simp only [hr]
      simp [hasListeners, lookupA_eraseA_self]

theorem getListenerCount_off_key (b : Bus) (k : EvKey) :
    getListenerCount (off b (some k) none).1 k = 0 := by
  simp only [off]
  cases hr : lookupA b.registry (eventName k) with
  | none => simp [getListenerCount, hr]
  | some aid =>
      simp only [hr]
      simp [getListenerCount, lookupA_eraseA_self]

theorem listeners_off_key (b : Bus) (k k' : EvKey) :
    listeners (off b (some k) none).1 k' =
      (listeners b k').filter fun q =>
        (regEntry b (eventName k)).all fun m => q.1 != m.subId := by
  simp only [off]
  cases hr : lookupA b.registry (eventName k) with
  | none =>
      simp [regEntry, hr, List.all_nil, List.filter_true]
  | some aid =>
      simp only [hr]
      show listeners (detachAll b ((lookupA b.arrays aid).getD [])) k' = _
      rw [listeners_detachAll]
      simp [regEntry, hr]

theorem clear_subjects (b : Bus) : (clear b).subjects = [] := rfl

theorem clear_registry (b : Bus) : (clear b).registry = [] := rfl

theorem emitAll_nil (b : Bus) (k : EvKey) : emitAll b k [] = b := rfl

theorem emitAll_cons (b : Bus) (k : EvKey) (p : Option JVal) (ps : List (Option JVal)) :
    emitAll b k (p :: ps) = emitAll (emit b k p).1 k ps := rfl

theorem valueOf_emitAll (k : EvKey) (ps : List (Option JVal)) :
    ∀ b : Bus, valueOf (emitAll b k ps) k = ps.foldl (fun _ p => p) (valueOf b k) := by
  induction ps with
  | nil => intro b; rfl
  | cons p ps ih =>
      intro b
      rw [emitAll_cons, ih, List.foldl_cons, valueOf_emit_self]

theorem foldl_last {α : Type} (ps : List α) (x : α) (hx : ps.getLast? = some x) :
    ∀ a : α, ps.foldl (fun _ p => p) a = x := by
  induction ps with
  | nil => simp at hx
  | cons p ps ih =>
      intro a
      cases ps with
      | nil =>
          simp at hx
          simp [hx]
      | cons q qs =>
          rw [List.getLast?_cons_cons] at hx
          rw [List.foldl_cons]
          exact ih hx _

/-! ### Claim theorems -/

/-- C1 counterexample: the claim fails as stated.  For the publish
sequence `[1, undefined]` to key `"k"`, the last *non-sentinel*
published value is `1`, yet a handler subscribed afterwards is not
invoked at all: the sentinel publish overwrote the `BehaviorSubject`'s
value with `undefined`, so the replay filter delivers nothing. -/
theorem replay_skips_value_before_sentinel_cex :
    (([some (JVal.jnat 1), none] : List (Option JVal)).filterMap id).getLast?
        = some (JVal.jnat 1)
    ∧ (on' (emitAll Bus.fresh (EvKey.str "k") [some (JVal.jnat 1), none])
        (EvKey.str "k") 7).log = [] :=
  ⟨rfl, rfl⟩

/-- C1 (amended): for every key K, after any sequence of publishes to K
whose *last publish* carries a non-sentinel value V, `subscribe(K, H)`
invokes H exactly once, with V, synchronously before returning; a
handler subscribed after the publishes receives only that latest value
(if the last publish was the sentinel, nothing is replayed, even when
earlier publishes carried values). -/
theorem on_replays_last_published_value (b : Bus) (k : EvKey) (h : Nat)
    (ps : List (Option JVal)) (v : JVal)
    (hlast : ps.getLast? = some (some v)) :
    (on' (emitAll b k ps) k h).log = [(h, v)] := by
  rw [on_log, valueOf_emitAll, foldl_last ps _ hlast]

/-- C1 witness: the amended replay theorem applied to the concrete
publish sequence `[1, 3]` on a fresh bus. -/
theorem on_replays_last_published_value_witness :
    ([some (JVal.jnat 1), some (JVal.jnat 3)] : List (Option JVal)).getLast?
        = some (some (JVal.jnat 3))
    ∧ (on' (emitAll Bus.fresh (EvKey.str "k")
          [some (JVal.jnat 1), some (JVal.jnat 3)]) (EvKey.str "k") 7).log
        = [(7, JVal.jnat 3)] :=
  ⟨rfl, on_replays_last_published_value Bus.fresh (EvKey.str "k") 7
    [some (JVal.jnat 1), some (JVal.jnat 3)] (JVal.jnat 3) rfl⟩

/-- C2 counterexample: the claim fails as stated.  After `publish(K, 1)`,
`getCurrentValue(K)` is `1`; a sentinel publish indeed invokes no
handler, but afterwards `getCurrentValue(K)` is the absence marker (not
`1`), and a handler subscribed afterwards receives no replay — the
`ValueCell` was not left unchanged. -/
theorem sentinel_publish_clears_cache_cex :
    getCurrentValue (emit Bus.fresh (EvKey.str "k") (some (JVal.jnat 1))).1
        (EvKey.str "k") = some (JVal.jnat 1)
    ∧ (emit (emit Bus.fresh (EvKey.str "k") (some (JVal.jnat 1))).1
        (EvKey.str "k") none).2 = []
    ∧ getCurrentValue
        (emit (emit Bus.fresh (EvKey.str "k") (some (JVal.jnat 1))).1
          (EvKey.str "k") none).1 (EvKey.str "k") = none
    ∧ (on' (emit (emit Bus.fresh (EvKey.str "k") (some (JVal.jnat 1))).1
          (EvKey.str "k") none).1 (EvKey.str "k") 7).log = [] :=
  ⟨rfl, rfl, rfl, rfl⟩

/-- C2 (amended): publishing the no-value sentinel (`undefined`) to K
invokes no handler, but it does *not* leave the `ValueCell` unchanged:
`subject.next(undefined)` overwrites the cell with `undefined`, so
afterwards `getCurrentValue(K)` returns the absence marker and a
handler subscribed afterwards receives no replay, whatever was cached
before. -/
theorem sentinel_publish_silent_but_clears_cell (b : Bus) (k : EvKey) (h : Nat) :
    (emit b k none).2 = []
    ∧ getCurrentValue (emit b k none).1 k = none
    ∧ (on' (emit b k none).1 k h).log = [] := by
  refine ⟨emit_log_none b k, ?_, ?_⟩
  · rw [getCurrentValue_eq_valueOf, valueOf_emit_self]
  · rw [on_log, valueOf_emit_self]

/-- C3 (confirmed): `publish(K, V)` with non-sentinel V sets the
`ValueCell` for K to present(V) and synchronously invokes exactly the
currently-registered handlers for K, once each with V, in registration
order — the delivery log is precisely the subject's observer list
(which `subscribe` extends at the tail, conjunct 5, so observer order
is registration order) mapped over V — while handlers and cells of any
other key k' are untouched, so no handler registered only under other
keys is invoked. -/
theorem publish_updates_cell_then_delivers_in_order (b : Bus) (k k' : EvKey)
    (v : JVal) (h : Nat) (hne : k' ≠ k) :
    getCurrentValue (emit b k (some v)).1 k = some v
    ∧ (emit b k (some v)).2 = (listeners b k).map (fun q => (q.2, v))
    ∧ listeners (emit b k (some v)).1 k' = listeners b k'
    ∧ getCurrentValue (emit b k (some v)).1 k' = getCurrentValue b k'
    ∧ listeners (on' b k h).bus k = listeners b k ++ [(b.nextSub, h)]
    ∧ listeners (on' b k h).bus k' = listeners b k' := by
  refine ⟨?_, emit_log_some b k v, listeners_emit b k k' (some v), ?_,
    listeners_on_self b k h, listeners_on_ne b k k' h hne⟩
  · rw [getCurrentValue_eq_valueOf, valueOf_emit_self]
  · rw [getCurrentValue_eq_valueOf, getCurrentValue_eq_valueOf,
      valueOf_emit_ne _ _ _ _ hne]

/-- C3 witness: the publish/delivery theorem applied at keys "a" ≠ "b"
on a fresh bus. -/
theorem publish_updates_cell_then_delivers_in_order_witness :
    (EvKey.str "b" ≠ EvKey.str "a")
    ∧ (getCurrentValue (emit Bus.fresh (EvKey.str "a") (some (JVal.jnat 5))).1
          (EvKey.str "a") = some (JVal.jnat 5)
      ∧ (emit Bus.fresh (EvKey.str "a") (some (JVal.jnat 5))).2
          = (listeners Bus.fresh (EvKey.str "a")).map (fun q => (q.2, JVal.jnat 5))
      ∧ listeners (emit Bus.fresh (EvKey.str "a") (some (JVal.jnat 5))).1
          (EvKey.str "b") = listeners Bus.fresh (EvKey.str "b")
      ∧ getCurrentValue (emit Bus.fresh (EvKey.str "a") (some (JVal.jnat 5))).1
          (EvKey.str "b") = getCurrentValue Bus.fresh (EvKey.str "b")
      ∧ listeners (on' Bus.fresh (EvKey.str "a") 2).bus (EvKey.str "a")
          = listeners Bus.fresh (EvKey.str "a") ++ [(Bus.fresh.nextSub, 2)]
      ∧ listeners (on' Bus.fresh (EvKey.str "a") 2).bus (EvKey.str "b")
          = listeners Bus.fresh (EvKey.str "b")) :=
  ⟨by decide, publish_updates_cell_then_delivers_in_order Bus.fresh
    (EvKey.str "a") (EvKey.str "b") (JVal.jnat 5) 2 (by decide)⟩

/-- C4 counterexample: the claim fails as stated.  With a handler
subscribed under "k", `unsubscribe("k")` (key given, no handler) emits
no warning, and a subsequent publish to "k" reaches no handler — the
subscription did not remain active, so the call removed something. -/
theorem off_with_key_removes_cex :
    (off (on' Bus.fresh (EvKey.str "k") 7).bus (some (EvKey.str "k")) none).2
        = false
    ∧ (emit (off (on' Bus.fresh (EvKey.str "k") 7).bus
        (some (EvKey.str "k")) none).1 (EvKey.str "k") (some (JVal.jnat 1))).2
        = []
    ∧ getListenerCount (off (on' Bus.fresh (EvKey.str "k") 7).bus
        (some (EvKey.str "k")) none).1 (EvKey.str "k") = 0 :=
  ⟨rfl, rfl, rfl⟩

/-- C4 (amended): it is `unsubscribe()` with *no key at all* that
removes nothing and only signals the caller-visible warning.
`unsubscribe(K)` with a key but no handler signals no warning and
detaches every subscription registered under K: the registry entry for
`String(K)` is deleted (`hasListeners` false, count 0) and every
subject observer whose subscription id lies in that entry is removed,
for every key. -/
theorem off_key_removes_all_off_no_key_warns (b : Bus) (k k' : EvKey) :
    off b none none = (b, true)
    ∧ (off b (some k) none).2 = false
    ∧ hasListeners (off b (some k) none).1 k = false
    ∧ getListenerCount (off b (some k) none).1 k = 0
    ∧ listeners (off b (some k) none).1 k' =
        (listeners b k').filter
          (fun q => (regEntry b (eventName k)).all fun m => q.1 != m.subId) :=
  ⟨off_no_key b none, off_key_warn b k none, hasListeners_off_key b k,
   getListenerCount_off_key b k, listeners_off_key b k k'⟩

/-- C5 counterexample: the claim fails as stated.  On a bus holding a
cached value for "k", the bulk-removal operation with no key leaves the
cached value in place while `clear()` discards it, so the two calls do
not leave the bus in the same state. -/
theorem off_no_key_not_clear_cex :
    (off (emit Bus.fresh (EvKey.str "k") (some (JVal.jnat 1))).1 none none).1
        ≠ clear (emit Bus.fresh (EvKey.str "k") (some (JVal.jnat 1))).1
    ∧ getCurrentValue
        (off (emit Bus.fresh (EvKey.str "k") (some (JVal.jnat 1))).1
          none none).1 (EvKey.str "k") = some (JVal.jnat 1)
    ∧ getCurrentValue (clear (emit Bus.fresh (EvKey.str "k")
        (some (JVal.jnat 1))).1) (EvKey.str "k") = none :=
  ⟨by decide, rfl, rfl⟩

/-- C5 (amended): calling the bulk-removal operation with no key is
*not* equivalent to `clear()`: it removes nothing — the bus state is
returned unchanged — and only signals the caller-visible warning. -/
theorem off_no_key_is_warning_noop (b : Bus) : off b none none = (b, true) :=
  off_no_key b none

/-- C6 (confirmed): key-scoped bulk removal (`off(K)` with no handler)
deletes K's registry entry (no listeners remain) but leaves the
`ValueCell` untouched: after `publish(K, V)` then `removeAll(K)`,
`getCurrentValue(K)` still returns V and a new `subscribe(K, H)` still
replays V to H exactly once. -/
theorem removeAll_preserves_cache (b : Bus) (k : EvKey) (v : JVal) (h : Nat) :
    getCurrentValue (off (emit b k (some v)).1 (some k) none).1 k = some v
    ∧ hasListeners (off (emit b k (some v)).1 (some k) none).1 k = false
    ∧ getListenerCount (off (emit b k (some v)).1 (some k) none).1 k = 0
    ∧ (on' (off (emit b k (some v)).1 (some k) none).1 k h).log = [(h, v)] := by
  refine ⟨?_, hasListeners_off_key _ k, getListenerCount_off_key _ k, ?_⟩
  · rw [getCurrentValue_eq_valueOf, valueOf_off_key, valueOf_emit_self]
  · rw [on_log, valueOf_off_key, valueOf_emit_self]

/-- C7 (confirmed): from every bus state, `clear()` empties both per-key
maps — its `subjects` and `registry` are exactly those of a freshly
constructed bus, and every public operation reads only these two maps
and the arrays reachable through `registry` — so for every key,
`getCurrentValue` is absent, `hasListeners` is false, the listener
count is 0, and the bus is immediately reusable exactly like a fresh
instance; `destroy()` is definitionally `clear()`. -/
theorem clear_resets_to_fresh (b : Bus) (k : EvKey) :
    (clear b).subjects = Bus.fresh.subjects
    ∧ (clear b).registry = Bus.fresh.registry
    ∧ getCurrentValue (clear b) k = none
    ∧ hasListeners (clear b) k = false
    ∧ getListenerCount (clear b) k = 0
    ∧ destroy b = clear b :=
  ⟨rfl, rfl, rfl, rfl, rfl, rfl⟩

/-- C8 counterexample: the claim fails as stated.  The keys
`Symbol(0, "a")` and `Symbol(1, "a")` are two distinct symbols with the
same description; before any subscription, `hasListeners` is false for
the second, yet subscribing a handler under the *first* makes
`hasListeners` and `getListenerCount` of the *second* report the
subscription — registry observations under k2 were affected by an
operation under k1. -/
theorem symbol_description_collision_cex :
    (EvKey.sym 0 "a" ≠ EvKey.sym 1 "a")
    ∧ hasListeners Bus.fresh (EvKey.sym 1 "a") = false
    ∧ hasListeners (on' Bus.fresh (EvKey.sym 0 "a") 7).bus (EvKey.sym 1 "a")
        = true
    ∧ getListenerCount (on' Bus.fresh (EvKey.sym 0 "a") 7).bus
        (EvKey.sym 1 "a") = 1 :=
  ⟨by decide, rfl, by decide, by decide⟩

/-- C8 (amended): delivery and the value cells are keyed by key
identity — for any two distinct keys k1 ≠ k2, even with equal
`String(·)` representations, publishing or subscribing under k1 never
invokes or perturbs handlers attached under k2 and never changes k2's
cached value — but the handler registry is keyed by `String(key)`, so
whenever `String(k1) = String(k2)` (e.g. two distinct symbols with the
same description) the two keys share one registry entry and
`hasListeners` / `getListenerCount` (and handler removal) under one
observe and affect the other. -/
theorem delivery_by_identity_registry_by_name (b : Bus) (k1 k2 : EvKey)
    (v : JVal) (h : Nat) (hne : k1 ≠ k2) (hnm : eventName k1 = eventName k2) :
    getCurrentValue (emit b k1 (some v)).1 k2 = getCurrentValue b k2
    ∧ listeners (emit b k1 (some v)).1 k2 = listeners b k2
    ∧ (emit b k1 (some v)).2 = (listeners b k1).map (fun q => (q.2, v))
    ∧ listeners (on' b k1 h).bus k2 = listeners b k2
    ∧ hasListeners b k1 = hasListeners b k2
    ∧ getListenerCount b k1 = getListenerCount b k2 := by
  have hne' : k2 ≠ k1 := Ne.symm hne
  refine ⟨?_, listeners_emit b k1 k2 (some v), emit_log_some b k1 v,
    listeners_on_ne b k1 k2 h hne', ?_, ?_⟩
  · rw [getCurrentValue_eq_valueOf, getCurrentValue_eq_valueOf,
      valueOf_emit_ne _ _ _ _ hne']
  · unfold hasListeners
    rw [hnm]
  · unfold getListenerCount
    rw [hnm]

/-- C8 witness: the amended theorem applied to the two distinct
same-description symbols on a bus with a handler under the first. -/
theorem delivery_by_identity_registry_by_name_witness :
    (EvKey.sym 0 "a" ≠ EvKey.sym 1 "a")
    ∧ eventName (EvKey.sym 0 "a") = eventName (EvKey.sym 1 "a")
    ∧ (getCurrentValue (emit (on' Bus.fresh (EvKey.sym 0 "a") 9).bus
          (EvKey.sym 0 "a") (some (JVal.jnat 1))).1 (EvKey.sym 1 "a")
        = getCurrentValue (on' Bus.fresh (EvKey.sym 0 "a") 9).bus
            (EvKey.sym 1 "a")
      ∧ listeners (emit (on' Bus.fresh (EvKey.sym 0 "a") 9).bus
          (EvKey.sym 0 "a") (some (JVal.jnat 1))).1 (EvKey.sym 1 "a")
        = listeners (on' Bus.fresh (EvKey.sym 0 "a") 9).bus (EvKey.sym 1 "a")
      ∧ (emit (on' Bus.fresh (EvKey.sym 0 "a") 9).bus (EvKey.sym 0 "a")
          (some (JVal.jnat 1))).2
        = (listeners (on' Bus.fresh (EvKey.sym 0 "a") 9).bus
            (EvKey.sym 0 "a")).map (fun q => (q.2, JVal.jnat 1))
      ∧ listeners (on' (on' Bus.fresh (EvKey.sym 0 "a") 9).bus
          (EvKey.sym 0 "a") 5).bus (EvKey.sym 1 "a")
        = listeners (on' Bus.fresh (EvKey.sym 0 "a") 9).bus (EvKey.sym 1 "a")
      ∧ hasListeners (on' Bus.fresh (EvKey.sym 0 "a") 9).bus (EvKey.sym 0 "a")
        = hasListeners (on' Bus.fresh (EvKey.sym 0 "a") 9).bus (EvKey.sym 1 "a")
      ∧ getListenerCount (on' Bus.fresh (EvKey.sym 0 "a") 9).bus
          (EvKey.sym 0 "a")
        = getListenerCount (on' Bus.fresh (EvKey.sym 0 "a") 9).bus
            (EvKey.sym 1 "a")) :=
  ⟨by decide, rfl, delivery_by_identity_registry_by_name
    (on' Bus.fresh (EvKey.sym 0 "a") 9).bus (EvKey.sym 0 "a")
    (EvKey.sym 1 "a") (JVal.jnat 1) 5 (by decide) rfl⟩

/-- C9: evaluation of the code at the failing trace.  After
`u = on("k", h1); off("k"); on("k", h2); u()` the stale unsubscribe
closure has deleted the fresh registry entry: `getListenerCount("k")`
is 0 and `hasListeners("k")` is false, yet handler 2's subscription is
still attached to the subject and a publish to "k" still invokes it —
so the count does not equal the number of live subscriptions, contrary
to the claimed invariant (and to the closure's own intent of deleting
the entry only when no handlers remain). -/
theorem listener_count_diverges_from_live_subscription :
    getListenerCount staleTokenTrace (EvKey.str "k") = 0
    ∧ hasListeners staleTokenTrace (EvKey.str "k") = false
    ∧ (emit staleTokenTrace (EvKey.str "k") (some (JVal.jnat 5))).2
        = [(2, JVal.jnat 5)] :=
  ⟨by decide, by decide, by decide⟩

/-- C10 (confirmed): only `undefined` is the no-value sentinel; `null`
is a legitimate payload.  `publish(K, null)` sets the `ValueCell` to
`null`, delivers `null` to every currently registered handler of K (the
`value !== undefined` filter passes `null`), is replayed as `null` to a
later subscriber, and `getCurrentValue(K)` afterwards returns `null`,
not the absence marker. -/
theorem null_payload_is_legitimate (b : Bus) (k : EvKey) (h : Nat) :
    getCurrentValue (emit b k (some JVal.jnull)).1 k = some JVal.jnull
    ∧ (emit b k (some JVal.jnull)).2
        = (listeners b k).map (fun q => (q.2, JVal.jnull))
    ∧ (on' (emit b k (some JVal.jnull)).1 k h).log = [(h, JVal.jnull)] := by
  refine ⟨?_, emit_log_some b k JVal.jnull, ?_⟩
  · rw [getCurrentValue_eq_valueOf, valueOf_emit_self]
  · rw [on_log, valueOf_emit_self]

end Miit
